import Mathlib

/-!
Verification development for the Uniswap V3 SwapBundler repository.

The definitions below are shallow embeddings of the source files:
- scripts/utils/swap-helpers.js (quote estimation, slippage guard, RPC route selection)
- contracts/SwapBundler.sol (single swap, batch swap, obfuscated swap, withdraw)

JavaScript BigInt arithmetic is embedded as Int with truncating division
(Int.tdiv, which rounds toward zero exactly as BigInt division does).
Solidity uint256 arithmetic is embedded as Nat: Solidity 0.8 checked
arithmetic reverts on overflow, and in every place the contract adds or
subtracts, the relevant guard makes the Nat embedding faithful (see the
comments at each definition). Addresses are embedded as Nat, with 0 as
the zero address. External calls (router, ERC20 transfers, ETH sends) are
recorded as an effect trace; reverts are Except.error.
-/

/-! ## Embedding of scripts/utils/swap-helpers.js -/

/-- Embeds the JavaScript string helper `sub.isPrefixOf`-style scan used to
model `url.includes(pattern)`: true iff `sub` occurs contiguously in the list. -/
def hasSubstring (sub : List Char) : List Char → Bool
  | [] => sub.isEmpty
  | c :: t => sub.isPrefixOf (c :: t) || hasSubstring sub t

/-- Embeds JavaScript `s.includes(sub)` on strings. -/
def jsIncludes (s sub : String) : Bool := hasSubstring sub.data s.data

/-- Embeds JavaScript `s.toLowerCase()` (the URLs and network names involved
are ASCII, where `Char.toLower` agrees with the JavaScript behaviour). -/
def jsToLower (s : String) : String := String.mk (s.data.map Char.toLower)

/-- Embeds `calculateMinOutput(expectedOutput, slippageBps)` from
swap-helpers.js lines 98-108. `expectedOutput` is a BigInt or null/undefined
(embedded as `Option Int`); the JavaScript guard `!expectedOutput ||
expectedOutput === 0n` is the `none` case together with the `q == 0` test.
BigInt division truncates toward zero, which is `Int.tdiv`. -/
def calculateMinOutput (expectedOutput : Option Int) (slippageBps : Int) : Int :=
  match expectedOutput with
  | none => 0
  | some q =>
      if q == 0 then 0
      else
        let slippageMultiplier := 10000 - slippageBps
        (q * slippageMultiplier).tdiv 10000

/-- Embeds the caller of the slippage guard in scripts/swap-with-bundler.js
(lines 270-277): `minAmountOut` starts at 0; when a quote is present and
positive, `calculateMinOutput` is applied; otherwise a warning is printed
that no slippage protection is active. The Bool component records whether
that warning was emitted. -/
def minOutputWithWarning (expectedOutput : Option Int) (slippageBps : Int) : Int × Bool :=
  match expectedOutput with
  | some q =>
      if 0 < q then (calculateMinOutput (some q) slippageBps, false)
      else (0, true)
  | none => (0, true)

/-- Chain-state accessor results seen by `getSwapQuote` / `getQuoteFromPool`:
whether a QuoterV2 address is configured, the outcome of the quoter static
call, and the outcome of the body of `getQuoteFromPool` (the pool reads plus
the price arithmetic; any thrown error, transport included, is `Except.error`). -/
structure ChainAccessor where
  quoterConfigured : Bool
  quoterCall : Except String Int
  poolBody : Except String Int
deriving Repr

/-- Embeds `getQuoteFromPool` from swap-helpers.js lines 61-90: the whole body
sits in a try/catch whose catch returns null, so any error in the pool reads
or arithmetic is absorbed into an absent quote. The result type is
`Except String (Option Int)` to record that the function itself can never
propagate an error. -/
def getQuoteFromPool (a : ChainAccessor) : Except String (Option Int) :=
  match a.poolBody with
  | Except.ok v => Except.ok (some v)
  | Except.error _ => Except.ok none

/-- Embeds `getSwapQuote` from swap-helpers.js lines 24-56: if a quoter is
configured, try it and on any error fall back to `getQuoteFromPool`;
otherwise go straight to `getQuoteFromPool`. The outer try/catch maps any
escaping error to a warning plus null. -/
def getSwapQuote (a : ChainAccessor) : Except String (Option Int) :=
  let body : Except String (Option Int) :=
    if a.quoterConfigured then
      match a.quoterCall with
      | Except.ok v => Except.ok (some v)
      | Except.error _ => getQuoteFromPool a
    else getQuoteFromPool a
  match body with
  | Except.ok v => Except.ok v
  | Except.error _ => Except.ok none

/-- Embeds `isProductionNetwork(chainId)` from swap-helpers.js lines 113-116. -/
def isProductionNetwork (chainId : Nat) : Bool := chainId == 1

/-- Embeds `isPrivateRPC(rpcUrl)` from swap-helpers.js lines 121-135. The
JavaScript guard `if (!rpcUrl) return false` treats the empty string (and a
missing URL) as falsy. -/
def isPrivateRPC (rpcUrl : String) : Bool :=
  if rpcUrl == "" then false
  else
    let url := jsToLower rpcUrl
    jsIncludes url "flashbots" || jsIncludes url "flashtrades" ||
      jsIncludes url "eden" || jsIncludes url "bloxroute" ||
      jsIncludes url "private" || jsIncludes url "protect"

/-- Embeds the `PRIVATE_RPC_ENDPOINTS.flashtrades` table from swap-helpers.js
lines 7-10: sepolia maps to null (falsy), mainnet to the Flashbots URL. -/
def flashtradesEndpoint (networkName : String) : Option String :=
  if networkName == "sepolia" then none
  else if networkName == "mainnet" then some "https://rpc.flashbots.net"
  else none

/-- Embeds `PRIVATE_RPC_ENDPOINTS.flashbots.mainnet` from swap-helpers.js. -/
def flashbotsMainnet : Option String := some "https://rpc.flashbots.net"

/-- Embeds `PRIVATE_RPC_ENDPOINTS.eden.mainnet` from swap-helpers.js. -/
def edenMainnet : Option String := some "https://api.edennetwork.io/v1/rpc"

/-- Embeds `getPrivateRPCUrl(network)` from swap-helpers.js lines 140-159:
try the FlashTrades table, then the Flashbots and Eden mainnet entries. -/
def getPrivateRPCUrl (network : String) : Option String :=
  let networkName := jsToLower network
  match flashtradesEndpoint networkName with
  | some u => some u
  | none =>
    match (if networkName == "mainnet" then flashbotsMainnet else none) with
    | some u => some u
    | none =>
      match (if networkName == "mainnet" then edenMainnet else none) with
      | some u => some u
      | none => none

/-- Embeds `enforcePrivateRPC(provider, network, rpcUrl)` from swap-helpers.js
lines 164-205. The chainId the provider reports is passed directly. A thrown
error is `Except.error`; the returned boolean is `Except.ok`. The sepolia
early return (lines 171-175) precedes the production check; in the
production/non-private/no-alternative branch the function only warns and
falls through to the final `return isPrivateRPC(rpcUrl)`. -/
def enforcePrivateRPC (chainId : Nat) (network : String) (rpcUrl : String) :
    Except String Bool :=
  let isProduction := isProductionNetwork chainId
  let networkName := jsToLower network
  if networkName == "sepolia" && !(isPrivateRPC rpcUrl) then
    Except.ok false
  else if isProduction then
    if !(isPrivateRPC rpcUrl) then
      match getPrivateRPCUrl network with
      | some _ => Except.error "Private RPC required for production network"
      | none => Except.ok (isPrivateRPC rpcUrl)
    else
      Except.ok true
  else
    Except.ok (isPrivateRPC rpcUrl)

/-! ## Embedding of contracts/SwapBundler.sol

Addresses are Nat (0 is the zero address); uint256 values are Nat. The
downstream `SimpleSwapRouter.exactInputSingleWithETH` is out of scope for the
repository and is passed in as a black-box function from
(pool, weth, params, msg.value sent along) to the output amount; side effects
of the bundler itself (the router call, ERC20 `safeTransfer`, ETH `transfer`,
and the `SwapBundled` event) are recorded in an effect trace. A revert is
`Except.error` with the require message; in the EVM a revert rolls the whole
transaction back, so an errored run has no observable effects at all. -/

/-- Embeds `SimpleSwapRouter.ExactInputSingleParams` as used by the bundler. -/
structure ExactInputSingleParams where
  tokenIn : Nat
  tokenOut : Nat
  fee : Nat
  recipient : Nat
  deadline : Nat
  amountIn : Nat
  amountOutMinimum : Nat
  sqrtPriceLimitX96 : Nat
deriving DecidableEq, Repr

/-- Observable external effects of the bundler contract. The `SwapBundled`
event carries the emitted fields that matter to the claims (the bundleId hash
is a keccak of block data and is not modelled). -/
inductive Effect where
  | routerCall (pool weth : Nat) (params : ExactInputSingleParams) (value : Nat)
  | tokenTransfer (token dst amount : Nat)
  | ethTransfer (dst amount : Nat)
  | swapBundledEvent (user tokenIn tokenOut amountIn amountOut : Nat)
deriving DecidableEq, Repr

/-- A black-box model of `router.exactInputSingleWithETH{value}` on a fixed
chain state: (pool, weth, params, value sent) to amount out. -/
def Router : Type := Nat → Nat → ExactInputSingleParams → Nat → Nat

/-- Is the effect an ERC20 token transfer performed by the bundler itself? -/
def Effect.isTokenTransfer : Effect → Bool
  | Effect.tokenTransfer _ _ _ => true
  | _ => false

/-- Embeds `bundleSwap(pool, weth, params)` from SwapBundler.sol lines 38-76:
require msg.value > 0 and params.tokenIn == weth, call the router forwarding
all of msg.value, emit the event. The comment at lines 65-66 is part of the
code: output tokens are NOT re-forwarded on this path. -/
def bundleSwap (router : Router) (sender pool weth : Nat)
    (params : ExactInputSingleParams) (msgValue : Nat) :
    Except String (Nat × List Effect) :=
  if msgValue == 0 then Except.error "Must send ETH"
  else if params.tokenIn != weth then Except.error "tokenIn must be WETH"
  else
    let amountOut := router pool weth params msgValue
    Except.ok (amountOut,
      [Effect.routerCall pool weth params msgValue,
       Effect.swapBundledEvent sender params.tokenIn params.tokenOut
         params.amountIn amountOut])

/-- The effects of one leg of `bundleSwaps` (lines 100-115): the router call
with value `amountIn`, then — only when `tokenOut` is not the zero address —
the `safeTransfer` of the output to the declared recipient. -/
def legEffects (router : Router) (pool weth : Nat)
    (s : ExactInputSingleParams) : List Effect :=
  let out := router pool weth s s.amountIn
  Effect.routerCall pool weth s s.amountIn ::
    (if s.tokenOut != 0 then [Effect.tokenTransfer s.tokenOut s.recipient out]
     else [])

/-- Embeds the loop body of `bundleSwaps` (lines 99-118) over the leg list:
each leg requires tokenIn == weth, calls the router with exactly that leg
amountIn as value, and conditionally forwards the output. Returns the
per-leg results and the accumulated effects. -/
def runLegs (router : Router) (pool weth : Nat) :
    List ExactInputSingleParams → Except String (List Nat × List Effect)
  | [] => Except.ok ([], [])
  | s :: rest =>
    if s.tokenIn != weth then Except.error "tokenIn must be WETH"
    else
      let out := router pool weth s s.amountIn
      match runLegs router pool weth rest with
      | Except.ok (rs, es) => Except.ok (out :: rs, legEffects router pool weth s ++ es)
      | Except.error e => Except.error e

/-- Embeds `bundleSwaps(pool, weth, swaps)` from SwapBundler.sol lines 83-124:
require a non-empty list, sum the leg amounts (checked uint256 addition: if
the mathematical sum exceeded 2^256 the sum computation itself would revert,
and in that case msg.value < sum holds mathematically as well, so comparing
against the Nat sum is faithful), require msg.value >= sum, run every leg,
then refund msg.value - sum to the sender when positive (`remainingValue`
is decremented by each leg amountIn, so after the loop it equals
msg.value - sum; the subtraction never underflows thanks to the require). -/
def bundleSwaps (router : Router) (sender pool weth : Nat)
    (swaps : List ExactInputSingleParams) (msgValue : Nat) :
    Except String (List Nat × Nat × List Effect) :=
  if swaps.length == 0 then Except.error "No swaps provided"
  else
    let totalValue := (swaps.map (fun s => s.amountIn)).sum
    if msgValue < totalValue then Except.error "Insufficient ETH"
    else
      match runLegs router pool weth swaps with
      | Except.ok (results, effects) =>
          let remainingValue := msgValue - totalValue
          Except.ok (results, remainingValue,
            effects ++
              (if remainingValue > 0 then [Effect.ethTransfer sender remainingValue]
               else []))
      | Except.error e => Except.error e

/-- Embeds `bundleSwapWithObfuscation(pool, weth, params, dummyOps)` from
SwapBundler.sol lines 134-181. The dummy loop `for i < dummyOps && i < 10`
executes min(dummyOps, 10) iterations of writes to a local variable with no
observable effect; the second returned component records that iteration
count. Unlike `bundleSwap`, after the router call the output is forwarded to
params.recipient by `safeTransfer` whenever tokenOut is not the zero address
(lines 166-171). -/
def bundleSwapWithObfuscation (router : Router) (sender pool weth : Nat)
    (params : ExactInputSingleParams) (dummyOps : Nat) (msgValue : Nat) :
    Except String (Nat × Nat × List Effect) :=
  let dummyIterations := min dummyOps 10
  if msgValue == 0 then Except.error "Must send ETH"
  else if params.tokenIn != weth then Except.error "tokenIn must be WETH"
  else
    let amountOut := router pool weth params msgValue
    Except.ok (amountOut, dummyIterations,
      Effect.routerCall pool weth params msgValue ::
        ((if params.tokenOut != 0 then
            [Effect.tokenTransfer params.tokenOut params.recipient amountOut]
          else []) ++
         [Effect.swapBundledEvent sender params.tokenIn params.tokenOut
            params.amountIn amountOut]))

/-- Embeds `withdraw(token, to)` from SwapBundler.sol lines 188-199. The
function has no access-control modifier or msg.sender check, so the caller
address is taken but never inspected. `ethBalance` is the contract ETH
balance, `tokenBalance` the result of `IERC20(token).balanceOf(this)`. -/
def withdraw (caller token dst ethBalance tokenBalance : Nat) :
    Except String (List Effect) :=
  let _ := caller
  if dst == 0 then Except.error "Invalid recipient"
  else if token == 0 then Except.ok [Effect.ethTransfer dst ethBalance]
  else if tokenBalance > 0 then
    Except.ok [Effect.tokenTransfer token dst tokenBalance]
  else Except.ok []

/-! ## Sanity checks of the embedding on concrete inputs -/

example : isPrivateRPC "https://rpc.flashbots.net" = true := by decide
example : isPrivateRPC "https://eth.llamarpc.com" = false := by decide
example : getPrivateRPCUrl "mainnet" = some "https://rpc.flashbots.net" := by decide
example : getPrivateRPCUrl "sepolia" = none := by decide
example : calculateMinOutput (some 4490000) 200 = 4400200 := by decide
example : calculateMinOutput (some 10000) 10001 = -1 := by decide
example : enforcePrivateRPC 1 "mainnet" "https://eth.llamarpc.com"
    = Except.error "Private RPC required for production network" := rfl
example : enforcePrivateRPC 1 "homestead" "https://eth.llamarpc.com"
    = Except.ok false := rfl

/-! ## Helper lemmas -/

/-- Running the batch loop when every leg has tokenIn = weth: one router call
per leg in order, each with the leg amountIn as value, with the conditional
output forwarding after each. -/
lemma runLegs_ok (router : Router) (pool weth : Nat)
    (swaps : List ExactInputSingleParams) (h : ∀ s ∈ swaps, s.tokenIn = weth) :
    runLegs router pool weth swaps
      = Except.ok (swaps.map (fun s => router pool weth s s.amountIn),
          swaps.flatMap (legEffects router pool weth)) := by
  induction swaps with
  | nil => rfl
  | cons s rest ih =>
      have hs : s.tokenIn = weth := h s (by simp)
      have hrest := ih (fun x hx => h x (by simp [hx]))
      simp only [runLegs, hs, bne_self_eq_false, Bool.false_eq_true, if_false,
        hrest, List.map_cons, List.flatMap_cons]

/-- The token transfers among the batch loop effects are exactly one per leg
with nonzero tokenOut, forwarding that leg output to that leg recipient. -/
lemma runLegs_filter_tokenTransfer (router : Router) (pool weth : Nat) :
    ∀ (swaps : List ExactInputSingleParams) (rs : List Nat) (es : List Effect),
      runLegs router pool weth swaps = Except.ok (rs, es) →
      es.filter Effect.isTokenTransfer
        = (swaps.filter (fun s => s.tokenOut != 0)).map
            (fun s => Effect.tokenTransfer s.tokenOut s.recipient
                (router pool weth s s.amountIn)) := by
  intro swaps
  induction swaps with
  | nil =>
      intro rs es h
      simp only [runLegs, Except.ok.injEq, Prod.mk.injEq] at h
      obtain ⟨-, h2⟩ := h
      subst h2
      rfl
  | cons s rest ih =>
      intro rs es h
      simp only [runLegs] at h
      by_cases hw : (s.tokenIn != weth) = true
      · rw [if_pos hw] at h
        exact absurd h (by simp)
      · rw [if_neg hw] at h
        cases hrest : runLegs router pool weth rest with
        | error e =>
            rw [hrest] at h
            exact absurd h (by simp)
        | ok p =>
            obtain ⟨rs2, es2⟩ := p
            rw [hrest] at h
            simp only [Except.ok.injEq, Prod.mk.injEq] at h
            obtain ⟨-, h2⟩ := h
            subst h2
            rw [List.filter_append, ih rs2 es2 hrest, List.filter_cons]
            by_cases h0 : (s.tokenOut != 0) = true <;>
              simp [legEffects, Effect.isTokenTransfer, h0, List.filter_cons]

/-- Full characterization of a successful bundleSwaps run on well-formed
legs: per-leg results, refund amount, leg effects in order, then the refund
transfer when the refund is positive. -/
lemma bundleSwaps_ok (router : Router) (sender pool weth msgValue : Nat)
    (swaps : List ExactInputSingleParams) (hne : swaps ≠ [])
    (hweth : ∀ s ∈ swaps, s.tokenIn = weth)
    (hsum : (swaps.map (fun s => s.amountIn)).sum ≤ msgValue) :
    bundleSwaps router sender pool weth swaps msgValue
      = Except.ok (swaps.map (fun s => router pool weth s s.amountIn),
          msgValue - (swaps.map (fun s => s.amountIn)).sum,
          swaps.flatMap (legEffects router pool weth) ++
            (if msgValue - (swaps.map (fun s => s.amountIn)).sum > 0 then
              [Effect.ethTransfer sender
                (msgValue - (swaps.map (fun s => s.amountIn)).sum)]
            else [])) := by
  have hlen : (swaps.length == 0) = false := by
    simp [List.length_eq_zero, hne]
  simp only [bundleSwaps, hlen, Bool.false_eq_true, if_false,
    if_neg (not_lt.mpr hsum), runLegs_ok router pool weth swaps hweth]

/-- Truncating division of natural casts agrees with Nat floor division. -/
lemma natCast_tdiv (m n : Nat) : ((m : Int)).tdiv (n : Int) = ((m / n : Nat) : Int) :=
  (Int.ofNat_tdiv m n).symm

/-- Truncating division of a nonpositive numerator by a nonnegative
denominator is nonpositive. -/
lemma tdiv_nonpos_of_nonpos (a b : Int) (ha : a ≤ 0) (hb : 0 ≤ b) :
    a.tdiv b ≤ 0 := by
  have h1 : (-a).tdiv b = -(a.tdiv b) := Int.neg_tdiv a b
  have h2 : 0 ≤ (-a).tdiv b := Int.tdiv_nonneg (by omega) hb
  omega

/-- A private RPC URL is returned only for the mainnet network name. -/
lemma getPrivateRPCUrl_mainnet (network u : String)
    (h : getPrivateRPCUrl network = some u) : jsToLower network = "mainnet" := by
  by_cases hm : jsToLower network = "mainnet"
  · exact hm
  · exfalso
    unfold getPrivateRPCUrl flashtradesEndpoint at h
    by_cases hs : jsToLower network = "sepolia" <;>
      simp [hs, hm, beq_iff_eq] at h

/-- Reduction of calculateMinOutput on a present nonzero quote. -/
lemma calculateMinOutput_some (q t : Int) (hq : q ≠ 0) :
    calculateMinOutput (some q) t = (q * (10000 - t)).tdiv 10000 := by
  simp [calculateMinOutput, hq]

/-! ## Claims about the slippage guard -/

/-- C2: for every quote q > 0 and every tolerance t in [0, 10000] basis
points, calculateMinOutput returns exactly floor(q * (10000 - t) / 10000)
(stated with Nat floor division on the right-hand side). -/
theorem calculateMinOutput_floor (q t : Nat) (hq : 0 < q) (ht : t ≤ 10000) :
    calculateMinOutput (some (q : Int)) (t : Int)
      = ((q * (10000 - t) / 10000 : Nat) : Int) := by
  rw [calculateMinOutput_some _ _ (by exact_mod_cast hq.ne')]
  have h1 : (10000 : Int) - (t : Int) = ((10000 - t : Nat) : Int) := by omega
  rw [h1, ← Int.natCast_mul]
  exact_mod_cast natCast_tdiv (q * (10000 - t)) 10000

/-- Witness for C2 at q = 4490000, t = 200 (the worked example of the spec). -/
theorem calculateMinOutput_floor_witness :
    0 < 4490000 ∧ (200 : Nat) ≤ 10000
      ∧ calculateMinOutput (some ((4490000 : Nat) : Int)) ((200 : Nat) : Int)
          = ((4490000 * (10000 - 200) / 10000 : Nat) : Int) :=
  ⟨by decide, by decide, calculateMinOutput_floor 4490000 200 (by decide) (by decide)⟩

/-- C9 counterexample: calculateMinOutput performs no range validation. For
the out-of-range tolerance t = 10001 with quote 10000 it computes and
returns -1, and for t = -100 it computes and returns 10100 (above the quote);
neither input is rejected. -/
theorem calculateMinOutput_no_range_check :
    calculateMinOutput (some 10000) 10001 = -1
      ∧ calculateMinOutput (some 10000) (-100) = 10100 := by
  constructor <;> rfl

/-- C9 amended: there is no range check; for every tolerance outside
[0, 10000] the same formula is applied to the out-of-range value. For
t > 10000 the result is the truncated division of a negative product and is
nonpositive; for t < 0 the result is at least the full quote q. -/
theorem calculateMinOutput_out_of_range (q t : Int) (hq : 0 < q) :
    (10000 < t →
      calculateMinOutput (some q) t = (q * (10000 - t)).tdiv 10000
        ∧ calculateMinOutput (some q) t ≤ 0)
    ∧ (t < 0 →
      calculateMinOutput (some q) t = (q * (10000 - t)).tdiv 10000
        ∧ q ≤ calculateMinOutput (some q) t) := by
  have hdef : calculateMinOutput (some q) t = (q * (10000 - t)).tdiv 10000 :=
    calculateMinOutput_some q t (by omega)
  constructor
  · intro hgt
    refine ⟨hdef, ?_⟩
    rw [hdef]
    have hneg : q * (10000 - t) ≤ 0 := by nlinarith
    exact tdiv_nonpos_of_nonpos _ _ hneg (by omega)
  · intro hlt
    refine ⟨hdef, ?_⟩
    rw [hdef]
    have hnn : 0 ≤ q * (10000 - t) := by nlinarith
    rw [Int.tdiv_eq_ediv hnn (by omega)]
    rw [Int.le_ediv_iff_mul_le (by omega)]
    nlinarith

/-- Witness for C9 amended at q = 10000, t = 10001 and t = -100. -/
theorem calculateMinOutput_out_of_range_witness :
    (calculateMinOutput (some 10000) 10001 = ((10000 : Int) * (10000 - 10001)).tdiv 10000
        ∧ calculateMinOutput (some 10000) 10001 ≤ 0)
      ∧ (calculateMinOutput (some 10000) (-100)
            = ((10000 : Int) * (10000 - (-100))).tdiv 10000
          ∧ (10000 : Int) ≤ calculateMinOutput (some 10000) (-100)) :=
  ⟨(calculateMinOutput_out_of_range 10000 10001 (by decide)).1 (by decide),
   (calculateMinOutput_out_of_range 10000 (-100) (by decide)).2 (by decide)⟩

/-- C5: for every tolerance, an absent quote yields MinimumOutput 0 from the
guard, and the calling script sets the minimum to 0 while emitting the
no-protection warning (the Bool flag). -/
theorem absent_quote_zero_and_warned (t : Int) :
    calculateMinOutput none t = 0 ∧ minOutputWithWarning none t = (0, true) :=
  ⟨rfl, rfl⟩

/-! ## Claims about the quote estimator -/

/-- C6 counterexample: an accessor-level transport failure in both the quoter
call and the pool read is absorbed into an absent quote (ok none); it is not
reported upward as an error. -/
theorem getSwapQuote_absorbs_transport_failure :
    getSwapQuote ⟨true, Except.error "ECONNREFUSED", Except.error "ECONNREFUSED"⟩
      = Except.ok none := rfl

/-- C6 amended: getSwapQuote never throws at all. Every failure, including
accessor-level transport failures, is absorbed: the result is always ok, and
whenever the oracle path yields no value (not configured, or its call errors)
and the pool-state path errors, the quote is absent. -/
theorem getSwapQuote_never_throws (a : ChainAccessor) :
    (∃ q, getSwapQuote a = Except.ok q)
    ∧ ((a.quoterConfigured = false ∨ ∃ e, a.quoterCall = Except.error e) →
       (∃ e, a.poolBody = Except.error e) →
       getSwapQuote a = Except.ok none) := by
  constructor
  · unfold getSwapQuote getQuoteFromPool
    rcases a with ⟨qc, qcall, pbody⟩
    cases qc <;> cases qcall <;> cases pbody <;> simp
  · rintro hque ⟨e, hpool⟩
    unfold getSwapQuote getQuoteFromPool
    rcases a with ⟨qc, qcall, pbody⟩
    simp only at hpool ⊢
    subst hpool
    rcases hque with hq | ⟨e2, hq⟩
    · simp only at hq
      subst hq
      simp
    · simp only at hq
      subst hq
      simp

/-- Witness for C6 amended: an unconfigured quoter with an erroring pool read
produces an absent quote without throwing. -/
theorem getSwapQuote_never_throws_witness :
    getSwapQuote ⟨false, Except.error "timeout", Except.error "timeout"⟩
      = Except.ok none :=
  (getSwapQuote_never_throws ⟨false, Except.error "timeout", Except.error "timeout"⟩).2
    (Or.inl rfl) ⟨"timeout", rfl⟩

/-! ## Claims about the route selector -/

/-- C3: on a production network, when the current endpoint is not
recognized-private and a recognized private endpoint is configured for the
network, enforcePrivateRPC throws before proceeding. -/
theorem enforcePrivateRPC_fails_fast (chainId : Nat) (network rpcUrl u : String)
    (hprod : isProductionNetwork chainId = true)
    (hpriv : isPrivateRPC rpcUrl = false)
    (halt : getPrivateRPCUrl network = some u) :
    enforcePrivateRPC chainId network rpcUrl
      = Except.error "Private RPC required for production network" := by
  have hmain : jsToLower network = "mainnet" := getPrivateRPCUrl_mainnet network u halt
  unfold enforcePrivateRPC
  rw [hmain, hprod, hpriv, halt]
  simp

/-- Witness for C3: chainId 1 with a public RPC URL on mainnet throws. -/
theorem enforcePrivateRPC_fails_fast_witness :
    enforcePrivateRPC 1 "mainnet" "https://eth.llamarpc.com"
      = Except.error "Private RPC required for production network" :=
  enforcePrivateRPC_fails_fast 1 "mainnet" "https://eth.llamarpc.com"
    "https://rpc.flashbots.net" (by decide) (by decide) (by decide)

/-- C4 counterexample: on production (chainId 1) with network name homestead
(for which no private endpoint is configured) and a non-private RPC URL, the
selector does not refuse: it returns ok false and the caller proceeds to
submit the swap over the public endpoint. -/
theorem enforcePrivateRPC_proceeds_without_alternative :
    isProductionNetwork 1 = true
      ∧ isPrivateRPC "https://eth.llamarpc.com" = false
      ∧ getPrivateRPCUrl "homestead" = none
      ∧ enforcePrivateRPC 1 "homestead" "https://eth.llamarpc.com"
          = Except.ok false :=
  ⟨by decide, by decide, by decide, rfl⟩

/-- C4 amended: on a production network with a non-private endpoint and no
recognized private alternative configured, the selector warns loudly but
proceeds, returning false (standard route with bundler protection); it does
not refuse. -/
theorem enforcePrivateRPC_warns_and_proceeds (chainId : Nat) (network rpcUrl : String)
    (hprod : isProductionNetwork chainId = true)
    (hpriv : isPrivateRPC rpcUrl = false)
    (halt : getPrivateRPCUrl network = none) :
    enforcePrivateRPC chainId network rpcUrl = Except.ok false := by
  unfold enforcePrivateRPC
  rw [hprod, hpriv, halt]
  by_cases hs : jsToLower network == "sepolia" <;> simp [hs]

/-- Witness for C4 amended at chainId 1, network homestead, public RPC. -/
theorem enforcePrivateRPC_warns_and_proceeds_witness :
    enforcePrivateRPC 1 "homestead" "https://eth.llamarpc.com" = Except.ok false :=
  enforcePrivateRPC_warns_and_proceeds 1 "homestead" "https://eth.llamarpc.com"
    (by decide) (by decide) (by decide)

/-! ## Claims about the bundler contract -/

/-- C1: for every non-empty batch whose legs all execute (tokenIn = weth for
each leg) with supplied value V: when V is at least the sum of the leg
amounts, the run succeeds and the amount refunded to the submitter is exactly
V minus that sum (an ethTransfer of V - sum to the sender when positive, and
no refund transfer when the difference is zero); when V is below the sum, the
batch reverts with Insufficient ETH before any leg executes (the revert
carries no effects). -/
theorem bundleSwaps_refund_exact (router : Router) (sender pool weth msgValue : Nat)
    (swaps : List ExactInputSingleParams) (hne : swaps ≠ [])
    (hweth : ∀ s ∈ swaps, s.tokenIn = weth) :
    ((swaps.map (fun s => s.amountIn)).sum ≤ msgValue →
      bundleSwaps router sender pool weth swaps msgValue
        = Except.ok (swaps.map (fun s => router pool weth s s.amountIn),
            msgValue - (swaps.map (fun s => s.amountIn)).sum,
            swaps.flatMap (legEffects router pool weth) ++
              (if msgValue - (swaps.map (fun s => s.amountIn)).sum > 0 then
                [Effect.ethTransfer sender
                  (msgValue - (swaps.map (fun s => s.amountIn)).sum)]
              else [])))
    ∧ (msgValue < (swaps.map (fun s => s.amountIn)).sum →
        bundleSwaps router sender pool weth swaps msgValue
          = Except.error "Insufficient ETH") := by
  constructor
  · intro hsum
    exact bundleSwaps_ok router sender pool weth msgValue swaps hne hweth hsum
  · intro hlt
    have hlen : (swaps.length == 0) = false := by
      simp [List.length_eq_zero, hne]
    simp only [bundleSwaps, hlen, Bool.false_eq_true, if_false, if_pos hlt]

/-- Witness for C1: two legs of 5 and 7 wei with value 20 refund exactly 8,
and the same batch with value 11 < 12 reverts. -/
theorem bundleSwaps_refund_exact_witness :
    bundleSwaps (fun _ _ _ v => 2 * v) 9 8 1
        [⟨1, 2, 500, 3, 0, 5, 0, 0⟩, ⟨1, 2, 500, 4, 0, 7, 0, 0⟩] 20
      = Except.ok ([10, 14], 8,
          [Effect.routerCall 8 1 ⟨1, 2, 500, 3, 0, 5, 0, 0⟩ 5,
           Effect.tokenTransfer 2 3 10,
           Effect.routerCall 8 1 ⟨1, 2, 500, 4, 0, 7, 0, 0⟩ 7,
           Effect.tokenTransfer 2 4 14,
           Effect.ethTransfer 9 8])
    ∧ bundleSwaps (fun _ _ _ v => 2 * v) 9 8 1
          [⟨1, 2, 500, 3, 0, 5, 0, 0⟩, ⟨1, 2, 500, 4, 0, 7, 0, 0⟩] 11
        = Except.error "Insufficient ETH" :=
  ⟨(bundleSwaps_refund_exact (fun _ _ _ v => 2 * v) 9 8 1 20
      [⟨1, 2, 500, 3, 0, 5, 0, 0⟩, ⟨1, 2, 500, 4, 0, 7, 0, 0⟩]
      (by decide) (by decide)).1 (by decide),
   (bundleSwaps_refund_exact (fun _ _ _ v => 2 * v) 9 8 1 11
      [⟨1, 2, 500, 3, 0, 5, 0, 0⟩, ⟨1, 2, 500, 4, 0, 7, 0, 0⟩]
      (by decide) (by decide)).2 (by decide)⟩

/-- C7 counterexample: with zero padding requested (dummyOps = 0, so the
padding prefix is empty) the obfuscation path is not identical to the
single-swap path: on the same input it performs an extra ERC20 transfer of
the output to params.recipient that bundleSwap does not perform. -/
theorem bundleSwapWithObfuscation_extra_transfer :
    bundleSwap (fun _ _ _ v => 2 * v) 9 8 1 ⟨1, 2, 500, 3, 0, 5, 0, 0⟩ 5
      = Except.ok (10,
          [Effect.routerCall 8 1 ⟨1, 2, 500, 3, 0, 5, 0, 0⟩ 5,
           Effect.swapBundledEvent 9 1 2 5 10])
    ∧ bundleSwapWithObfuscation (fun _ _ _ v => 2 * v) 9 8 1
          ⟨1, 2, 500, 3, 0, 5, 0, 0⟩ 0 5
        = Except.ok (10, 0,
            [Effect.routerCall 8 1 ⟨1, 2, 500, 3, 0, 5, 0, 0⟩ 5,
             Effect.tokenTransfer 2 3 10,
             Effect.swapBundledEvent 9 1 2 5 10]) :=
  ⟨rfl, rfl⟩

/-- C7 amended: the padding count is min(dummyOps, 10) (silently truncated,
so dummyOps = 15 behaves exactly as dummyOps = 10), and the obfuscation path
behaves like the single-swap path preceded by the padding EXCEPT that after
the router call it additionally forwards the output to params.recipient
whenever tokenOut is not the zero address. -/
theorem bundleSwapWithObfuscation_amended (router : Router) (sender pool weth : Nat)
    (params : ExactInputSingleParams) (d msgValue : Nat) :
    bundleSwapWithObfuscation router sender pool weth params 15 msgValue
      = bundleSwapWithObfuscation router sender pool weth params 10 msgValue
    ∧ bundleSwapWithObfuscation router sender pool weth params d msgValue
      = bundleSwapWithObfuscation router sender pool weth params (min d 10) msgValue
    ∧ (∀ e, bundleSwap router sender pool weth params msgValue = Except.error e →
        bundleSwapWithObfuscation router sender pool weth params d msgValue
          = Except.error e)
    ∧ (∀ out effs,
        bundleSwap router sender pool weth params msgValue = Except.ok (out, effs) →
        bundleSwapWithObfuscation router sender pool weth params d msgValue
          = Except.ok (out, min d 10,
              Effect.routerCall pool weth params msgValue ::
                ((if params.tokenOut != 0 then
                    [Effect.tokenTransfer params.tokenOut params.recipient out]
                  else []) ++
                 [Effect.swapBundledEvent sender params.tokenIn params.tokenOut
                    params.amountIn out]))) := by
  refine ⟨rfl, ?_, ?_, ?_⟩
  · have hmm : min (min d 10) 10 = min d 10 := by omega
    simp only [bundleSwapWithObfuscation, hmm]
  · intro e h
    by_cases h0 : (msgValue == 0) = true
    · simp only [bundleSwap, h0, if_true, Except.error.injEq] at h
      subst h
      simp [bundleSwapWithObfuscation, h0]
    · by_cases h1 : (params.tokenIn != weth) = true
      · simp only [bundleSwap, h0, Bool.false_eq_true, if_false, h1, if_true,
          Except.error.injEq] at h
        subst h
        simp [bundleSwapWithObfuscation, h0, h1]
      · simp [bundleSwap, h0, h1] at h
  · intro out effs h
    by_cases h0 : (msgValue == 0) = true
    · simp [bundleSwap, h0] at h
    · by_cases h1 : (params.tokenIn != weth) = true
      · simp [bundleSwap, h0, h1] at h
      · simp only [bundleSwap, h0, Bool.false_eq_true, if_false, h1,
          Except.ok.injEq, Prod.mk.injEq] at h
        obtain ⟨hout, -⟩ := h
        subst hout
        simp [bundleSwapWithObfuscation, h0, h1]

/-- Witness for C7 amended at dummyOps = 15: the result equals the capped
run, and the success case exhibits the extra forwarding transfer. -/
theorem bundleSwapWithObfuscation_amended_witness :
    bundleSwapWithObfuscation (fun _ _ _ v => 2 * v) 9 8 1
        ⟨1, 2, 500, 3, 0, 5, 0, 0⟩ 15 5
      = Except.ok (10, 10,
          [Effect.routerCall 8 1 ⟨1, 2, 500, 3, 0, 5, 0, 0⟩ 5,
           Effect.tokenTransfer 2 3 10,
           Effect.swapBundledEvent 9 1 2 5 10]) :=
  (bundleSwapWithObfuscation_amended (fun _ _ _ v => 2 * v) 9 8 1
      ⟨1, 2, 500, 3, 0, 5, 0, 0⟩ 15 5).2.2.2 10
    [Effect.routerCall 8 1 ⟨1, 2, 500, 3, 0, 5, 0, 0⟩ 5,
     Effect.swapBundledEvent 9 1 2 5 10] rfl

/-- C8 counterexample: a batch containing a leg whose tokenOut is the zero
address executes that leg without any output-forwarding transfer: the whole
effect trace is the router call alone, with zero token transfers. The batch
path therefore does not forward output for every leg of every batch. -/
theorem bundleSwaps_skips_zero_token_leg :
    bundleSwaps (fun _ _ _ v => 2 * v) 9 8 1 [⟨1, 0, 500, 3, 0, 5, 0, 0⟩] 5
      = Except.ok ([10], 0, [Effect.routerCall 8 1 ⟨1, 0, 500, 3, 0, 5, 0, 0⟩ 5])
    ∧ List.filter Effect.isTokenTransfer
        [Effect.routerCall 8 1 ⟨1, 0, 500, 3, 0, 5, 0, 0⟩ 5] = [] :=
  ⟨rfl, rfl⟩

/-- C8 amended: the single-swap path performs no token transfer at all (the
router credits the recipient directly), and on the batch path the token
transfers are exactly one per leg with nonzero tokenOut — in leg order, each
forwarding that leg output to that leg declared recipient; legs whose
tokenOut is the zero address get no transfer. -/
theorem bundle_paths_output_forwarding (router : Router)
    (sender pool weth msgValue : Nat) (params : ExactInputSingleParams)
    (swaps : List ExactInputSingleParams) :
    (∀ out effs,
        bundleSwap router sender pool weth params msgValue = Except.ok (out, effs) →
        effs.filter Effect.isTokenTransfer = [])
    ∧ (∀ results refund effs,
        bundleSwaps router sender pool weth swaps msgValue
          = Except.ok (results, refund, effs) →
        effs.filter Effect.isTokenTransfer
          = (swaps.filter (fun s => s.tokenOut != 0)).map
              (fun s => Effect.tokenTransfer s.tokenOut s.recipient
                  (router pool weth s s.amountIn))) := by
  constructor
  · intro out effs h
    by_cases h0 : (msgValue == 0) = true
    · simp [bundleSwap, h0] at h
    · by_cases h1 : (params.tokenIn != weth) = true
      · simp [bundleSwap, h0, h1] at h
      · simp only [bundleSwap, h0, Bool.false_eq_true, if_false, h1,
          Except.ok.injEq, Prod.mk.injEq] at h
        obtain ⟨-, h2⟩ := h
        subst h2
        rfl
  · intro results refund effs h
    by_cases hlen : (swaps.length == 0) = true
    · simp [bundleSwaps, hlen] at h
    · simp only [bundleSwaps, hlen, Bool.false_eq_true, if_false] at h
      by_cases hval : msgValue < (swaps.map (fun s => s.amountIn)).sum
      · rw [if_pos hval] at h
        exact absurd h (by simp)
      · rw [if_neg hval] at h
        cases hrl : runLegs router pool weth swaps with
        | error e =>
            rw [hrl] at h
            exact absurd h (by simp)
        | ok p =>
            obtain ⟨rs, es⟩ := p
            rw [hrl] at h
            simp only [Except.ok.injEq, Prod.mk.injEq] at h
            obtain ⟨-, -, h3⟩ := h
            subst h3
            rw [List.filter_append,
              runLegs_filter_tokenTransfer router pool weth swaps rs es hrl]
            have hrest : List.filter Effect.isTokenTransfer
                (if msgValue - (swaps.map (fun s => s.amountIn)).sum > 0 then
                  [Effect.ethTransfer sender
                    (msgValue - (swaps.map (fun s => s.amountIn)).sum)]
                else []) = [] := by
              split <;> rfl
            rw [hrest, List.append_nil]

/-- Witness for C8 amended: a two-leg batch with one nonzero-token leg and
one zero-token leg yields exactly one forwarding transfer, for the nonzero
leg. -/
theorem bundle_paths_output_forwarding_witness :
    List.filter Effect.isTokenTransfer
        [Effect.routerCall 8 1 ⟨1, 2, 500, 3, 0, 5, 0, 0⟩ 5,
         Effect.tokenTransfer 2 3 10,
         Effect.routerCall 8 1 ⟨1, 0, 500, 4, 0, 7, 0, 0⟩ 7]
      = [Effect.tokenTransfer 2 3 10] :=
  (bundle_paths_output_forwarding (fun _ _ _ v => 2 * v) 9 8 1 12
      ⟨1, 2, 500, 3, 0, 5, 0, 0⟩
      [⟨1, 2, 500, 3, 0, 5, 0, 0⟩, ⟨1, 0, 500, 4, 0, 7, 0, 0⟩]).2
    [10, 14] 0
    [Effect.routerCall 8 1 ⟨1, 2, 500, 3, 0, 5, 0, 0⟩ 5,
     Effect.tokenTransfer 2 3 10,
     Effect.routerCall 8 1 ⟨1, 0, 500, 4, 0, 7, 0, 0⟩ 7] rfl

/-- C10: withdraw has no caller restriction (the result is the same for every
caller); for every nonzero recipient it sends the entire ETH balance when
token is the zero address and otherwise the entire token balance (no transfer
call is made when that balance is zero); and it reverts exactly when the
recipient is the zero address. -/
theorem withdraw_unrestricted_full_balance (caller caller2 token dst ethB tokB : Nat) :
    withdraw caller token dst ethB tokB = withdraw caller2 token dst ethB tokB
    ∧ (dst ≠ 0 → token = 0 →
        withdraw caller token dst ethB tokB = Except.ok [Effect.ethTransfer dst ethB])
    ∧ (dst ≠ 0 → token ≠ 0 → 0 < tokB →
        withdraw caller token dst ethB tokB
          = Except.ok [Effect.tokenTransfer token dst tokB])
    ∧ (dst ≠ 0 → token ≠ 0 → tokB = 0 →
        withdraw caller token dst ethB tokB = Except.ok [])
    ∧ (withdraw caller token dst ethB tokB = Except.error "Invalid recipient"
        ↔ dst = 0) := by
  refine ⟨rfl, ?_, ?_, ?_, ?_⟩
  · intro hd ht
    simp [withdraw, hd, ht]
  · intro hd ht htb
    simp [withdraw, hd, ht, htb]
  · intro hd ht htb
    simp [withdraw, hd, ht, htb]
  · constructor
    · intro h
      by_contra hd
      by_cases ht : token = 0
      · simp [withdraw, hd, ht] at h
      · by_cases htb : 0 < tokB
        · simp [withdraw, hd, ht, htb] at h
        · simp [withdraw, hd, ht, htb] at h
    · intro h
      simp [withdraw, h]

/-- Witness for C10: any caller can sweep the whole 42 wei ETH balance to
address 3; a nonzero-token withdraw with zero balance does nothing; recipient
zero reverts. -/
theorem withdraw_unrestricted_full_balance_witness :
    withdraw 5 0 3 42 0 = Except.ok [Effect.ethTransfer 3 42]
    ∧ withdraw 5 7 3 42 0 = Except.ok []
    ∧ (withdraw 5 0 0 42 0 = Except.error "Invalid recipient" ↔ (0 : Nat) = 0) :=
  ⟨(withdraw_unrestricted_full_balance 5 77 0 3 42 0).2.1 (by decide) rfl,
   (withdraw_unrestricted_full_balance 5 77 7 3 42 0).2.2.2.1 (by decide) (by decide) rfl,
   (withdraw_unrestricted_full_balance 5 77 0 0 42 0).2.2.2.2⟩
